import Mathlib

set_option maxRecDepth 100000

/-!
Verification of the label-creator layout and auto-fit-text engine
(`label_creator.py`), shallowly embedded in Lean 4.

Python machine integers are arbitrary-precision, so they are modelled by `ℤ`.
Python `//` is floor division; every `//` in this program has a positive
divisor (`len(lines) + 1` and the literal `8`), and for a positive divisor
floor division agrees with Lean's `/` on `ℤ`, which is used throughout.
Python float arithmetic (used only for the icon aspect ratio) is IEEE-754
binary64; it is modelled bit-faithfully by dyadic rationals `m·2^e` with
round-to-nearest-even to 53 significant bits at the division and at the
multiplication (see `roundPosRatio`).  The drawing context's font
metrics (`QFontMetrics.height`, `QFontMetrics.horizontalAdvance`) are an
external deterministic capability and are modelled by an abstract `Measurer`.
The two `while` loops of `find_optimal_font_size_no_wrap` are embedded as
structural recursion on an explicit iteration bound that is exact for each
loop: the shrink loop decrements `size` once per iteration and runs only
while `10 < size`, so it runs at most `(size - 10).toNat` iterations and
stops by itself once `size = 10`; the growth loop increments `size` by 2 per
iteration and runs only while `size + 2 ≤ heightLimit`, so it runs at most
`(heightLimit - size).toNat` iterations and stops by itself at the limit.
With these bounds the embedded loops compute exactly what the Python loops
compute, and every definition evaluates by `decide`/`rfl`.
-/

/-- The text-measurement capability behind `painter.fontMetrics()`:
`height size` is `fm.height()` after `font.setPointSize(size)`, and
`width line size` is `fm.horizontalAdvance(line)` at that point size. -/
structure Measurer where
  height : ℤ → ℤ
  width : String → ℤ → ℤ

/-- The overflow test of `find_optimal_font_size_no_wrap`
(src/label_creator.py lines 308-310 and 317-319):
`fm.height() * len(lines) > max_h or any(fm.horizontalAdvance(line) > max_w
for line in lines)`. -/
def overflows (m : Measurer) (lines : List String) (maxW maxH size : ℤ) : Bool :=
  decide (maxH < m.height size * (lines.length : ℤ)) ||
    lines.any (fun l => decide (maxW < m.width l size))

/-- The shrink loop (lines 317-324): `while size > 10 and (overflow): size -= 1`.
`fuel` is the iteration budget; the wrapper passes `(size - 10).toNat`, which
is exact (see module comment). -/
def shrinkAux (m : Measurer) (lines : List String) (maxW maxH : ℤ) :
    ℕ → ℤ → ℤ
  | 0, size => size
  | fuel + 1, size =>
      if 10 < size ∧ overflows m lines maxW maxH size then
        shrinkAux m lines maxW maxH fuel (size - 1)
      else
        size

/-- The growth loop (lines 298-312), run only for `len(lines) != 1`:
`next = size + 2; stop if next > height_limit; stop if overflow at next;
else size = next`.  `fuel` is the iteration budget; the wrapper passes
`(heightLimit - size).toNat`, which is exact (see module comment). -/
def growAux (m : Measurer) (lines : List String) (maxW maxH heightLimit : ℤ) :
    ℕ → ℤ → ℤ
  | 0, size => size
  | fuel + 1, size =>
      if size + 2 ≤ heightLimit ∧ ¬ overflows m lines maxW maxH (size + 2) then
        growAux m lines maxW maxH heightLimit fuel (size + 2)
      else
        size

/-- Line 288: `height_limit = max_h if len(lines) == 1 else
max_h // (len(lines) + 1)` (the divisor is positive, so Python's `//` is
Lean's `/` on `ℤ`). -/
def heightLimit (lines : List String) (maxH : ℤ) : ℤ :=
  if lines.length = 1 then maxH else maxH / ((lines.length : ℤ) + 1)

/-- Lines 287-312 of `find_optimal_font_size_no_wrap`: the candidate font size
just before the shrink loop runs.  A single-line input is seeded at
`height_limit` (= `max_h`) and skips growth; any other input is seeded at
`start` and grown. -/
def preShrinkCandidate (m : Measurer) (lines : List String)
    (maxW maxH start : ℤ) : ℤ :=
  if lines.length = 1 then heightLimit lines maxH
  else growAux m lines maxW maxH (heightLimit lines maxH)
    ((heightLimit lines maxH - start).toNat) start

/-- `find_optimal_font_size_no_wrap(painter, lines, max_w, max_h, start)`
(lines 284-325): seed/grow, then shrink. -/
def find_optimal_font_size_no_wrap (m : Measurer) (lines : List String)
    (maxW maxH start : ℤ) : ℤ :=
  shrinkAux m lines maxW maxH
    ((preShrinkCandidate m lines maxW maxH start - 10).toNat)
    (preShrinkCandidate m lines maxW maxH start)

/-- A concrete measurer used for concrete evaluations: every size has line
height 1 and every line has width 0. -/
def flatMeasurer : Measurer where
  height := fun _ => 1
  width := fun _ _ => 0

/-- Python `s.rstrip("\n")`: drop every trailing newline character. -/
def rstripNL (s : String) : String :=
  s.dropRightWhile (· == '\n')

/-- The decoded icon raster (`QPixmap`): natural pixel width and height,
as returned by `icon.width()` and `icon.height()`. -/
structure IconAsset where
  width : ℤ
  height : ℤ

/-- An IEEE-754 binary64 value, represented exactly as `m · 2^e`. -/
structure Dyadic where
  m : ℤ
  e : ℤ
deriving DecidableEq

/-- Scale the positive ratio `a/b` by powers of two (adjusting the binary
exponent `e` accordingly) until `a/b ∈ [2^52, 2^53)`, the mantissa range of
a normalised binary64 significand.  The fuel `a + b + 54` passed by
`roundPosRatio` strictly exceeds the number of doublings needed for every
`a, b ≥ 1`, so the loop always reaches the normalised range. -/
def normAux : ℕ → ℕ → ℕ → ℤ → ℕ × ℕ × ℤ
  | 0, a, b, e => (a, b, e)
  | fuel + 1, a, b, e =>
      if a < 2 ^ 52 * b then normAux fuel (2 * a) b (e - 1)
      else if 2 ^ 53 * b ≤ a then normAux fuel a (2 * b) (e + 1)
      else (a, b, e)

/-- The value `(a/b) · 2^e` rounded to the nearest binary64 double, ties to
even: normalise so the significand lies in `[2^52, 2^53)`, then round the
integer division of the scaled ratio half-to-even.  The model keeps the
exponent unbounded, so overflow to infinity and subnormal precision loss —
which require magnitudes beyond `2^1023` or below `2^-1021`, unreachable
from any canvas this program builds — are not modelled. -/
def roundPosRatio (a b : ℕ) (e : ℤ) : Dyadic :=
  if a = 0 ∨ b = 0 then ⟨0, 0⟩
  else
    match normAux (a + b + 54) a b e with
    | (a2, b2, e2) =>
        let q := a2 / b2
        let r := a2 % b2
        let mant : ℕ :=
          if 2 * r < b2 then q
          else if b2 < 2 * r then q + 1
          else if q % 2 = 0 then q else q + 1
        ⟨(mant : ℤ), e2⟩

/-- CPython `float(n)` / implicit int-to-float conversion: the integer
rounded to the nearest double, ties to even. -/
def intToDouble (n : ℤ) : Dyadic :=
  let d := roundPosRatio n.natAbs 1 0
  if 0 ≤ n then d else ⟨-d.m, d.e⟩

/-- CPython `a / b` on two ints (`int.__truediv__`): the correctly rounded
double of the exact integer ratio. -/
def divDouble (a b : ℤ) : Dyadic :=
  let d := roundPosRatio a.natAbs b.natAbs 0
  if 0 ≤ a * b then d else ⟨-d.m, d.e⟩

/-- Binary64 multiplication: the exact product of the two dyadic values,
rounded to the nearest double, ties to even. -/
def mulDouble (x y : Dyadic) : Dyadic :=
  let d := roundPosRatio (x.m * y.m).natAbs 1 (x.e + y.e)
  if 0 ≤ x.m * y.m then d else ⟨-d.m, d.e⟩

/-- Python `int(x)` on a float: truncation toward zero. -/
def truncDouble (x : Dyadic) : ℤ :=
  if 0 ≤ x.e then x.m * 2 ^ x.e.toNat
  else if 0 ≤ x.m then x.m / 2 ^ (-x.e).toNat
  else -(-x.m / 2 ^ (-x.e).toNat)

/-- `int(icon.width() * (icon_h / icon.height()))` (lines 174, 238, 265, 356):
the icon width after scaling the icon to height `iconH` preserving aspect
ratio, computed as the program computes it — `icon_h / icon.height()` is a
correctly rounded binary64 quotient, the multiplication by `icon.width()`
rounds again, and `int()` truncates toward zero. -/
def iconScaledWidth (icon : IconAsset) (iconH : ℤ) : ℤ :=
  truncDouble (mulDouble (intToDouble icon.width) (divDouble iconH icon.height))

/-- Decides whether the dyadic `d` equals the exact ratio `a/b` (for
`b ≠ 0`), by cross-multiplication. -/
def dyEq (d : Dyadic) (a b : ℤ) : Bool :=
  if 0 ≤ d.e then decide (d.m * 2 ^ d.e.toNat * b = a)
  else decide (d.m * b = a * 2 ^ (-d.e).toNat)

/-- Python `max(xs, default=0)`: the maximum of the list, `0` when empty. -/
def pyMax0 : List ℤ → ℤ
  | [] => 0
  | x :: xs => xs.foldl max x

/-- `base_size = max(12, min(36, h // 8))` (lines 153, 225, 337). -/
def baseSize (hgt : ℤ) : ℤ :=
  max 12 (min 36 (hgt / 8))

/-- The `"auto"`-width branch of `update_preview` (lines 148-178): fit the
font by height alone with an effectively unbounded width (`max_w = 10**9`),
measure each line at the resulting size, take the maximum as `text_max_w`,
and assemble the final canvas width from icon, text and padding. -/
def autoWidthPreview (m : Measurer) (hgt : ℤ) (padding : Bool)
    (icon : Option IconAsset) (text0 : String) : ℤ :=
  let pad : ℤ := if padding then 10 else 0
  let size := find_optimal_font_size_no_wrap m ((rstripNL text0).splitOn "\n")
    (10 ^ 9) (hgt - pad * 2) (baseSize hgt)
  let text := rstripNL text0
  let lines := text.splitOn "\n"
  let textMaxW := pyMax0 (lines.map fun l => m.width l size)
  match icon with
  | some ic =>
      if text ≠ "" then
        let iconH := hgt - pad * 2
        pad + iconScaledWidth ic iconH + pad + textMaxW + pad
      else textMaxW + pad * 2
  | none => textMaxW + pad * 2

/-- The `"auto"`-width branch of `generate_label` (lines 334-360), a separate
transcription of that block: it repeats the preview computation verbatim. -/
def autoWidthExport (m : Measurer) (hgt : ℤ) (padding : Bool)
    (icon : Option IconAsset) (text0 : String) : ℤ :=
  let pad : ℤ := if padding then 10 else 0
  let size := find_optimal_font_size_no_wrap m ((rstripNL text0).splitOn "\n")
    (10 ^ 9) (hgt - pad * 2) (baseSize hgt)
  let text := rstripNL text0
  let lines := text.splitOn "\n"
  let textMaxW := pyMax0 (lines.map fun l => m.width l size)
  match icon with
  | some ic =>
      if text ≠ "" then
        let iconH := hgt - pad * 2
        pad + iconScaledWidth ic iconH + pad + textMaxW + pad
      else textMaxW + pad * 2
  | none => textMaxW + pad * 2

/-- The resolved auto width as the spec's §4.3 words describe it: run the fit
in unbounded-width mode against `maxHeight = height − 2×margin`, let
`textMaxWidth` be the maximum measured line width at that size (`0` for no
lines), and return `margin + iconWidth + margin + textMaxWidth + margin`
when an icon is present and the text is non-empty, else
`textMaxWidth + 2×margin`. -/
def specResolvedWidth (m : Measurer) (hgt : ℤ) (padding : Bool)
    (icon : Option IconAsset) (text0 : String) : ℤ :=
  let margin : ℤ := if padding then 10 else 0
  let lines := (rstripNL text0).splitOn "\n"
  let size := find_optimal_font_size_no_wrap m lines (10 ^ 9)
    (hgt - 2 * margin) (baseSize hgt)
  let textMaxWidth := pyMax0 (lines.map fun l => m.width l size)
  match icon with
  | some ic =>
      if rstripNL text0 ≠ "" then
        margin + iconScaledWidth ic (hgt - 2 * margin) + margin +
          textMaxWidth + margin
      else textMaxWidth + 2 * margin
  | none => textMaxWidth + 2 * margin

/-- The subset of Python values a `dimensions.yaml` width entry can take in
this model: an integer, a string, or `None` (e.g. a missing key).  (The
`"auto"` string is intercepted before the coercions below ever run, and
floats are outside this model.) -/
inductive PyVal where
  | int (n : ℤ)
  | str (s : String)
  | none
deriving DecidableEq

/-- The exception class raised by a failing Python `int(w)`. -/
inductive PyErr where
  | valueError
  | typeError
deriving DecidableEq

/-- Python `int(w)` on a `PyVal`, relative to an abstract integer-literal
parser for strings (CPython's exact string grammar is irrelevant to the
claims; what matters is that a failing parse raises `ValueError` while a
non-numeric non-string such as `None` raises `TypeError`). -/
def pyIntOf (parse : String → Option ℤ) : PyVal → Except PyErr ℤ
  | .int n => .ok n
  | .str s =>
      match parse s with
      | some n => .ok n
      | Option.none => .error .valueError
  | .none => .error .typeError

/-- The width coercion of `update_preview` (lines 182-187):
`if not isinstance(w, int): try: w = int(w) except ValueError: w = 0`.
An exception other than `ValueError` propagates (`.error`). -/
def previewCoerce (parse : String → Option ℤ) : PyVal → Except PyErr ℤ
  | .int n => .ok n
  | v =>
      match pyIntOf parse v with
      | .ok n => .ok n
      | .error .valueError => .ok 0
      | .error e => .error e

/-- The width coercion of `generate_label` (lines 363-367):
`try: w = int(w) except Exception: w = 0`.  Every exception is swallowed. -/
def exportCoerce (parse : String → Option ℤ) (v : PyVal) : ℤ :=
  match pyIntOf parse v with
  | .ok n => n
  | .error _ => 0

/-- `overflows = false` unfolded: both fit predicates hold. -/
theorem overflows_eq_false_iff (m : Measurer) (lines : List String)
    (maxW maxH size : ℤ) :
    overflows m lines maxW maxH size = false ↔
      m.height size * (lines.length : ℤ) ≤ maxH ∧
        ∀ l ∈ lines, m.width l size ≤ maxW := by
  simp only [overflows, Bool.or_eq_false_iff, decide_eq_false_iff_not, not_lt,
    List.any_eq_false]
  constructor
  · rintro ⟨h1, h2⟩
    exact ⟨h1, fun l hl => not_lt.mp (by simpa using h2 l hl)⟩
  · rintro ⟨h1, h2⟩
    exact ⟨h1, fun l hl => by simpa using not_lt.mpr (h2 l hl)⟩

/-- Fitting is monotone in the height budget: what does not overflow a small
box does not overflow a taller one. -/
theorem overflows_false_mono (m : Measurer) (lines : List String) (maxW : ℤ)
    {maxH₁ maxH₂ size : ℤ} (h : maxH₁ ≤ maxH₂)
    (ho : overflows m lines maxW maxH₁ size = false) :
    overflows m lines maxW maxH₂ size = false := by
  rw [overflows_eq_false_iff] at ho ⊢
  exact ⟨le_trans ho.1 h, ho.2⟩

/-- The shrink loop only decreases the size. -/
theorem shrinkAux_le (m : Measurer) (lines : List String) (maxW maxH : ℤ) :
    ∀ (f : ℕ) (s : ℤ), shrinkAux m lines maxW maxH f s ≤ s := by
  intro f
  induction f with
  | zero => intro s; simp [shrinkAux]
  | succ f ih =>
      intro s
      simp only [shrinkAux]
      split
      · exact le_trans (ih (s - 1)) (by omega)
      · exact le_refl s

/-- The shrink loop never goes below `min 10 s`: it decrements only while
the size is strictly above 10. -/
theorem min_le_shrinkAux (m : Measurer) (lines : List String) (maxW maxH : ℤ) :
    ∀ (f : ℕ) (s : ℤ), min 10 s ≤ shrinkAux m lines maxW maxH f s := by
  intro f
  induction f with
  | zero => intro s; simp [shrinkAux]
  | succ f ih =>
      intro s
      simp only [shrinkAux]
      split
      case isTrue hc =>
        have := ih (s - 1)
        omega
      case isFalse hc => omega

/-- With at least `(s - 10).toNat` fuel (the exact iteration count of the
Python loop) the shrink loop runs to its stopping condition: the result is
at the floor or fits. -/
theorem shrinkAux_exit (m : Measurer) (lines : List String) (maxW maxH : ℤ) :
    ∀ (f : ℕ) (s : ℤ), (s - 10).toNat ≤ f →
      shrinkAux m lines maxW maxH f s ≤ 10 ∨
        overflows m lines maxW maxH (shrinkAux m lines maxW maxH f s) = false := by
  intro f
  induction f with
  | zero =>
      intro s h
      left
      simp only [shrinkAux]
      omega
  | succ f ih =>
      intro s h
      simp only [shrinkAux]
      split
      case isTrue hc => exact ih (s - 1) (by omega)
      case isFalse hc =>
        by_cases h10 : s ≤ 10
        · exact Or.inl h10
        · right
          rcases Bool.eq_false_or_eq_true (overflows m lines maxW maxH s) with
            hb | hb
          · exact absurd (And.intro (by omega) hb) hc
          · exact hb

/-- Any size below the start that is at the floor or fits bounds the shrink
result from below: the loop stops at the first such size going down. -/
theorem le_shrinkAux (m : Measurer) (lines : List String) (maxW maxH : ℤ) :
    ∀ (f : ℕ) (s t : ℤ), t ≤ s →
      (t ≤ 10 ∨ overflows m lines maxW maxH t = false) →
      t ≤ shrinkAux m lines maxW maxH f s := by
  intro f
  induction f with
  | zero => intro s t hts _; simpa [shrinkAux] using hts
  | succ f ih =>
      intro s t hts hq
      simp only [shrinkAux]
      split
      case isTrue hc =>
        refine ih (s - 1) t ?_ hq
        rcases eq_or_lt_of_le hts with heq | hlt
        · subst heq
          rcases hq with h10 | hfit
          · omega
          · rw [hc.2] at hfit
            cases hfit
        · omega
      case isFalse hc => exact hts

/-- The growth loop only increases the size. -/
theorem le_growAux (m : Measurer) (lines : List String) (maxW maxH hl : ℤ) :
    ∀ (f : ℕ) (s : ℤ), s ≤ growAux m lines maxW maxH hl f s := by
  intro f
  induction f with
  | zero => intro s; simp [growAux]
  | succ f ih =>
      intro s
      simp only [growAux]
      split
      case isTrue hc => exact le_trans (by omega) (ih (s + 2))
      case isFalse hc => exact le_refl s

/-- The growth loop never exceeds `max s hl`: a step to `s + 2` is taken
only when `s + 2 ≤ hl`. -/
theorem growAux_le (m : Measurer) (lines : List String) (maxW maxH hl : ℤ) :
    ∀ (f : ℕ) (s : ℤ), growAux m lines maxW maxH hl f s ≤ max s hl := by
  intro f
  induction f with
  | zero => intro s; simp [growAux]
  | succ f ih =>
      intro s
      simp only [growAux]
      split
      case isTrue hc =>
        have := ih (s + 2)
        have h2 : s + 2 ≤ hl := hc.1
        omega
      case isFalse hc => omega

/-- The growth loop moves in steps of 2: its result is an even offset from
the start size. -/
theorem growAux_parity (m : Measurer) (lines : List String) (maxW maxH hl : ℤ) :
    ∀ (f : ℕ) (s : ℤ), ∃ k : ℕ, growAux m lines maxW maxH hl f s = s + 2 * k := by
  intro f
  induction f with
  | zero => intro s; exact ⟨0, by simp [growAux]⟩
  | succ f ih =>
      intro s
      simp only [growAux]
      split
      case isTrue hc =>
        obtain ⟨k, hk⟩ := ih (s + 2)
        exact ⟨k + 1, by omega⟩
      case isFalse hc => exact ⟨0, by omega⟩

/-- The pre-shrink candidate is at least the seed (`maxH` for one line,
`start` otherwise): the growth loop only moves upward. -/
theorem seed_le_preShrinkCandidate (m : Measurer) (lines : List String)
    (maxW maxH start : ℤ) :
    (if lines.length = 1 then maxH else start) ≤
      preShrinkCandidate m lines maxW maxH start := by
  unfold preShrinkCandidate heightLimit
  by_cases h : lines.length = 1
  · simp [h]
  · simp only [h, if_false]
    exact le_growAux m lines maxW maxH _ _ start

/-- C1 (amended): the text-fit search never shrinks below 10, so its result
is at least `min 10 s₀` where `s₀` is the seed (`maxHeight` for a single
line, `startSize` otherwise); in particular the result is at least 10
whenever that seed is, but a seed already below 10 is returned as-is. -/
theorem fit_floor_amended (m : Measurer) (lines : List String)
    (maxW maxH start : ℤ) :
    min 10 (if lines.length = 1 then maxH else start) ≤
      find_optimal_font_size_no_wrap m lines maxW maxH start := by
  have h1 := seed_le_preShrinkCandidate m lines maxW maxH start
  have h2 := min_le_shrinkAux m lines maxW maxH
    ((preShrinkCandidate m lines maxW maxH start - 10).toNat)
    (preShrinkCandidate m lines maxW maxH start)
  unfold find_optimal_font_size_no_wrap
  omega

/-- C1 (counterexample): for a single line in a box of height 5 the search
returns 5, which is below the claimed universal floor of 10. -/
theorem fit_floor_counterexample :
    find_optimal_font_size_no_wrap flatMeasurer ["a"] 100 5 12 < 10 := by
  decide

/-- The pre-shrink candidate is bounded by the larger of the seed and the
height limit: growth never oversteps `height_limit`. -/
theorem preShrinkCandidate_le (m : Measurer) (lines : List String)
    (maxW maxH start : ℤ) :
    preShrinkCandidate m lines maxW maxH start ≤
      max (if lines.length = 1 then maxH else start)
        (heightLimit lines maxH) := by
  unfold preShrinkCandidate
  by_cases h : lines.length = 1
  · simp [h, heightLimit]
  · simp only [h, if_false]
    exact growAux_le m lines maxW maxH _ _ start

/-- C2 (amended): the returned size never exceeds the larger of the seed and
the height limit — `maxHeight` for a single line, `max startSize
(maxHeight // (N+1))` for `N ≠ 1` lines.  The code contains no cap of 72
(see the counterexample returning 1000). -/
theorem fit_range_amended (m : Measurer) (lines : List String)
    (maxW maxH start : ℤ) :
    find_optimal_font_size_no_wrap m lines maxW maxH start ≤
      max (if lines.length = 1 then maxH else start)
        (heightLimit lines maxH) := by
  have h1 := shrinkAux_le m lines maxW maxH
    ((preShrinkCandidate m lines maxW maxH start - 10).toNat)
    (preShrinkCandidate m lines maxW maxH start)
  have h2 := preShrinkCandidate_le m lines maxW maxH start
  unfold find_optimal_font_size_no_wrap
  omega

/-- C2 (counterexample): a single line in a box of height 1000 whose measured
height and width always fit yields font size 1000, far above the claimed
cap of 72. -/
theorem fit_cap_counterexample :
    72 < find_optimal_font_size_no_wrap flatMeasurer ["a"] 100 1000 12 := by
  decide

/-- C3: any size the search returns strictly above the floor of 10 satisfies
both fit predicates — the measured line height times the line count is at
most `maxHeight`, and every line's measured width is at most `maxWidth`. -/
theorem fit_no_overflow_above_floor (m : Measurer) (lines : List String)
    (maxW maxH start : ℤ) :
    find_optimal_font_size_no_wrap m lines maxW maxH start ≤ 10 ∨
      (m.height (find_optimal_font_size_no_wrap m lines maxW maxH start) *
          (lines.length : ℤ) ≤ maxH ∧
        ∀ l ∈ lines,
          m.width l (find_optimal_font_size_no_wrap m lines maxW maxH start)
            ≤ maxW) := by
  have h := shrinkAux_exit m lines maxW maxH
    ((preShrinkCandidate m lines maxW maxH start - 10).toNat)
    (preShrinkCandidate m lines maxW maxH start) (le_refl _)
  unfold find_optimal_font_size_no_wrap
  rcases h with h | h
  · exact Or.inl h
  · exact Or.inr ((overflows_eq_false_iff m lines maxW maxH _).mp h)

/-- C4: for a line count other than 1 the growth phase starts at `startSize`,
moves in even steps, and never exceeds `max startSize (maxHeight // (N+1))`:
a probe is accepted only when it stays at most `maxHeight // (N+1)` and both
fit predicates hold at it. -/
theorem growth_ceiling (m : Measurer) (lines : List String)
    (maxW maxH start : ℤ) (h : lines.length ≠ 1) :
    start ≤ preShrinkCandidate m lines maxW maxH start ∧
      (∃ k : ℕ, preShrinkCandidate m lines maxW maxH start = start + 2 * k) ∧
      preShrinkCandidate m lines maxW maxH start ≤
        max start (maxH / ((lines.length : ℤ) + 1)) := by
  unfold preShrinkCandidate heightLimit
  simp only [if_neg h]
  exact ⟨le_growAux m lines maxW maxH _ _ start,
    growAux_parity m lines maxW maxH _ _ start,
    growAux_le m lines maxW maxH _ _ start⟩

/-- C4 (witness): two lines, box height 20, start 12: the ceiling
`20 // 3 = 6` is below the start, so the candidate stays at 12. -/
theorem growth_ceiling_witness :
    (["a", "b"] : List String).length ≠ 1 ∧
      (12 ≤ preShrinkCandidate flatMeasurer ["a", "b"] 100 20 12 ∧
        (∃ k : ℕ,
          preShrinkCandidate flatMeasurer ["a", "b"] 100 20 12 = 12 + 2 * k) ∧
        preShrinkCandidate flatMeasurer ["a", "b"] 100 20 12 ≤
          max 12 (20 / (((["a", "b"] : List String).length : ℤ) + 1))) :=
  ⟨by decide, growth_ceiling flatMeasurer ["a", "b"] 100 20 12 (by decide)⟩

/-- C5: for a one-line input the growth phase is skipped and the pre-shrink
candidate equals `maxHeight` exactly, whatever `startSize` was supplied. -/
theorem single_line_seed (m : Measurer) (lines : List String)
    (maxW maxH start : ℤ) (h : lines.length = 1) :
    preShrinkCandidate m lines maxW maxH start = maxH := by
  unfold preShrinkCandidate heightLimit
  simp [h]

/-- C5 (witness): one line, box height 7, start 99: the candidate is 7. -/
theorem single_line_seed_witness :
    (["x"] : List String).length = 1 ∧
      preShrinkCandidate flatMeasurer ["x"] 100 7 99 = 7 :=
  ⟨by decide, single_line_seed flatMeasurer ["x"] 100 7 99 (by decide)⟩

/-- C6: both the preview path and the export path resolve the auto width to
exactly the spec formula: `margin + iconW + margin + textMaxWidth + margin`
when an icon is present and the text is non-empty, else
`textMaxWidth + 2×margin`, with `textMaxWidth` the maximum measured line
width at the size found in unbounded-width mode. -/
theorem auto_width_formula (m : Measurer) (hgt : ℤ) (padding : Bool)
    (icon : Option IconAsset) (text0 : String) :
    autoWidthPreview m hgt padding icon text0 =
        specResolvedWidth m hgt padding icon text0 ∧
      autoWidthExport m hgt padding icon text0 =
        specResolvedWidth m hgt padding icon text0 := by
  constructor <;>
  · simp only [autoWidthPreview, autoWidthExport, specResolvedWidth]
    cases icon <;> cases padding <;> ring_nf

/-- Two integer ratios that cross-multiply to the same value have the same
floor: for positive denominators, `c·b = a·k` gives `c/k = a/b`. -/
theorem ediv_eq_of_cross_mul (a b c k : ℤ) (hb : 0 < b) (hk : 0 < k)
    (h : c * b = a * k) : c / k = a / b := by
  have hq : a % b + b * (a / b) = a := Int.emod_add_ediv a b
  have hr0 : 0 ≤ a % b := Int.emod_nonneg a (ne_of_gt hb)
  have hrb : a % b < b := Int.emod_lt_of_pos a hb
  have hkey : (c - a / b * k) * b = k * (a % b) := by
    linear_combination h - k * hq
  have hr20 : 0 ≤ c - a / b * k := by nlinarith [mul_nonneg hk.le hr0]
  have hr2k : c - a / b * k < k := by
    have h5 : (c - a / b * k) * b < k * b := by
      nlinarith [mul_lt_mul_of_pos_left hrb hk]
    exact lt_of_mul_lt_mul_right h5 hb.le
  have hc : c = (c - a / b * k) + k * (a / b) := by ring
  rw [hc, Int.add_mul_ediv_left _ _ (ne_of_gt hk),
    Int.ediv_eq_zero_of_lt hr20 hr2k, zero_add]

/-- C7 (counterexample): at natural size `(49, 49)` and target height 1 the
program computes width 0, not the exact floor `⌊49·1/49⌋ = 1`: the double
`1/49` rounds below `1/49`, so `49 * (1/49)` rounds to the double just
below 1, which `int()` truncates to 0. -/
theorem icon_aspect_ratio_counterexample :
    iconScaledWidth { width := 49, height := 49 } 1 = 0 ∧
      (49 * 1 : ℤ) / 49 = 1 := by
  refine ⟨by decide, by decide⟩

/-- C7 (amended): the icon width is the truncation toward zero of the
double-precision product `nw ⊗ (th ⊘ nh)`, not of the exact ratio.  The two
agree at the spec's non-integer-ratio test case `nw=101, nh=37, th=180`,
giving width 491, and they agree whenever the rounded product happens to be
exact; but they differ e.g. at `nw=nh=49, th=1`. -/
theorem icon_aspect_ratio_amended :
    (iconScaledWidth { width := 101, height := 37 } 180 = 491 ∧
        (101 * 180 : ℤ) / 37 = 491) ∧
      ∀ nw nh th : ℤ, 0 < nh → 0 ≤ nw → 0 ≤ th →
        dyEq (mulDouble (intToDouble nw) (divDouble th nh)) (nw * th) nh
          = true →
        iconScaledWidth { width := nw, height := nh } th = nw * th / nh := by
  refine ⟨⟨by decide, by decide⟩, ?_⟩
  intro nw nh th hh hw ht hd
  show truncDouble (mulDouble (intToDouble nw) (divDouble th nh)) =
    nw * th / nh
  set d := mulDouble (intToDouble nw) (divDouble th nh) with hd_def
  unfold dyEq at hd
  unfold truncDouble
  by_cases he : 0 ≤ d.e
  · rw [if_pos he] at hd ⊢
    have h2 : d.m * 2 ^ d.e.toNat * nh = nw * th := of_decide_eq_true hd
    rw [← h2, Int.mul_ediv_cancel _ (ne_of_gt hh)]
  · rw [if_neg he] at hd ⊢
    have h2 : d.m * nh = nw * th * 2 ^ (-d.e).toNat := of_decide_eq_true hd
    have hm : 0 ≤ d.m := by
      have hp : 0 ≤ nw * th * 2 ^ (-d.e).toNat := by positivity
      nlinarith [h2, hh]
    rw [if_pos hm]
    exact ediv_eq_of_cross_mul (nw * th) nh d.m (2 ^ (-d.e).toNat) hh
      (pow_pos (by norm_num) _) h2

/-- C7 (witness): `nw=3, nh=2, th=4` — the quotient 2 and the product 6 are
exactly representable, so the computed width equals `⌊3·4/2⌋ = 6`. -/
theorem icon_aspect_ratio_amended_witness :
    (0 : ℤ) < 2 ∧
      dyEq (mulDouble (intToDouble 3) (divDouble 4 2)) (3 * 4) 2 = true ∧
      iconScaledWidth { width := 3, height := 2 } 4 = 3 * 4 / 2 :=
  ⟨by decide, by decide,
    icon_aspect_ratio_amended.2 3 2 4 (by decide) (by decide) (by decide)
      (by decide)⟩

/-- C8: for a fixed single line, measurer, width bound and start size, the
fit result is monotone (non-decreasing) in `maxHeight`. -/
theorem fit_monotone_in_maxHeight (m : Measurer) (l : String)
    (maxW start maxH₁ maxH₂ : ℤ) (h : maxH₁ ≤ maxH₂) :
    find_optimal_font_size_no_wrap m [l] maxW maxH₁ start ≤
      find_optimal_font_size_no_wrap m [l] maxW maxH₂ start := by
  unfold find_optimal_font_size_no_wrap
  have hc₁ : preShrinkCandidate m [l] maxW maxH₁ start = maxH₁ := by
    simp [preShrinkCandidate, heightLimit]
  have hc₂ : preShrinkCandidate m [l] maxW maxH₂ start = maxH₂ := by
    simp [preShrinkCandidate, heightLimit]
  rw [hc₁, hc₂]
  have hq := shrinkAux_exit m [l] maxW maxH₁ ((maxH₁ - 10).toNat) maxH₁
    (le_refl _)
  have hle := shrinkAux_le m [l] maxW maxH₁ ((maxH₁ - 10).toNat) maxH₁
  refine le_shrinkAux m [l] maxW maxH₂ ((maxH₂ - 10).toNat) maxH₂ _
    (by omega) ?_
  rcases hq with hq | hq
  · exact Or.inl hq
  · exact Or.inr (overflows_false_mono m [l] maxW h hq)

/-- C8 (witness): heights 5 and 8 for a single line under `flatMeasurer`. -/
theorem fit_monotone_witness :
    (5 : ℤ) ≤ 8 ∧
      find_optimal_font_size_no_wrap flatMeasurer ["a"] 100 5 12 ≤
        find_optimal_font_size_no_wrap flatMeasurer ["a"] 100 8 12 :=
  ⟨by decide, fit_monotone_in_maxHeight flatMeasurer "a" 100 12 5 8 (by decide)⟩

/-- C9 (amended): a width specification that is a string unparseable as an
integer falls back to 0 in both the preview and the export coercion (the
failing `int()` raises `ValueError`, which both paths catch); a non-numeric
specification that is not a string is recovered only by the export path. -/
theorem width_fallback_amended (parse : String → Option ℤ) (s : String)
    (h : parse s = Option.none) :
    previewCoerce parse (PyVal.str s) = Except.ok 0 ∧
      exportCoerce parse (PyVal.str s) = 0 := by
  constructor
  · simp [previewCoerce, pyIntOf, h]
  · simp [exportCoerce, pyIntOf, h]

/-- C9 (witness): the unparseable string width specification "abc". -/
theorem width_fallback_witness :
    (fun _ : String => (Option.none : Option ℤ)) "abc" = Option.none ∧
      previewCoerce (fun _ => Option.none) (PyVal.str "abc") = Except.ok 0 ∧
      exportCoerce (fun _ => Option.none) (PyVal.str "abc") = 0 := by
  have h := width_fallback_amended (fun _ => Option.none) "abc" rfl
  exact ⟨rfl, h.1, h.2⟩

/-- C9 (counterexample): for the non-numeric width specification `None`, the
preview coercion does not fall back to 0 — `int(None)` raises `TypeError`,
which `except ValueError` does not catch, so the error propagates. -/
theorem width_fallback_counterexample :
    previewCoerce (fun _ => Option.none) PyVal.none ≠ Except.ok 0 := by
  simp [previewCoerce, pyIntOf]

/-- C10 (amended): the preview and export width coercions agree on every
integer and every string width specification; they diverge on a value that
is neither (such as `None`), where export falls back to 0 but preview
propagates a `TypeError`. -/
theorem coercions_agree_amended (parse : String → Option ℤ) (v : PyVal)
    (h : v ≠ PyVal.none) :
    previewCoerce parse v = Except.ok (exportCoerce parse v) := by
  cases v with
  | int n => simp [previewCoerce, exportCoerce, pyIntOf]
  | str s =>
      cases hp : parse s <;> simp [previewCoerce, exportCoerce, pyIntOf, hp]
  | none => exact absurd rfl h

/-- C10 (witness): the integer width specification 5. -/
theorem coercions_agree_witness :
    PyVal.int 5 ≠ PyVal.none ∧
      previewCoerce (fun _ => Option.none) (PyVal.int 5) =
        Except.ok (exportCoerce (fun _ => Option.none) (PyVal.int 5)) :=
  ⟨by decide,
    coercions_agree_amended (fun _ => Option.none) (PyVal.int 5) (by decide)⟩

/-- C10 (counterexample): on the width specification `None` the two paths do
not resolve the same width — the export coercion yields 0, the preview
coercion raises instead of yielding 0 (or anything). -/
theorem coercions_agree_counterexample :
    previewCoerce (fun _ => Option.none) PyVal.none ≠
      Except.ok (exportCoerce (fun _ => Option.none) PyVal.none) := by
  simp [previewCoerce, exportCoerce, pyIntOf]
